import Mathlib

/-!
Verification of our-linkify: social graph engine and conversation store

A shallow embedding of the route handlers of `src/routes/users.js`
(follow, reject-request, accept-request, followers, following, unfollow) and of
`src/routes/chats.js` (messages, createChat, sendMessages, createGroup), with
the properties of the specification stated over them.

Modelling conventions.

* A stored identifier (`_id`, an entry of `followers`, the `_id` of the token in
  `req.user._id`) is an ObjectId, modelled as a natural number.  Its text
  (`toString()`, and the string the token carries) is lower-case hex.
* A route parameter is a raw string.  `findById` and the array setters cast it
  to an ObjectId, while `===`, `!==` and `includes` compare it as a string with
  the lower-case text of an identifier.  A `Param` records both: the ObjectId
  the string casts to, and whether the string is that lower-case text.
* A Mongoose collection is a finite map from `_id` to document.  For users it is
  a function `Id → Option User` (`User.findById`), for chats and messages it is
  the list of stored documents in insertion order (`Chat.findOne` returns the
  first match).
* `doc.save()` persists the paths of the loaded document that the handler
  modified, under the document's `_id`.  A save that replaces an array path
  carries the version of the loaded document: when one record was loaded twice
  and the first save has replaced an array, the second save is rejected
  (VersionError), the handler throws and no reply is sent.
* The order in which the server returns documents with equal sort key is not
  fixed by the query; it is a parameter of the page handler.
* A handler returns its reply together with the collection after the call.
-/

namespace Linkify

/-- Document identifier (`_id`). -/
abbrev Id := Nat

/-- A route parameter (`req.params.userId`, `req.params.requesterId`): a raw
string that names an ObjectId.  `id` is the ObjectId that `findById` and the
array setters cast the string to.  `canonical` tells whether the string is the
lower-case hex text that `toString()` gives for that ObjectId, the text in
which the token carries `req.user._id`; an upper-case spelling of the same
digits casts to the same ObjectId and is a different string. -/
structure Param where
  id : Id
  canonical : Bool
deriving DecidableEq, Repr

/-- The route string that is the lower-case hex text of `i`. -/
def Param.lower (i : Id) : Param := ⟨i, true⟩

/-- A route string that casts to `i` and is spelled in upper-case hex. -/
def Param.upper (i : Id) : Param := ⟨i, false⟩

/-- String equality of the route string with the text of the identifier `i`:
`userId === currentUserId`, `id.toString() === userId`. -/
def Param.spells (p : Param) (i : Id) : Bool :=
  p.canonical && decide (p.id = i)

/-- `arr.includes(p)` for a route string `p`: the text of some entry equals the
string. -/
def includesParam (arr : List Id) (p : Param) : Bool :=
  arr.any fun i => p.spells i

/-- The relationship fields of a user document (`models/users`), as the handlers
of `src/routes/users.js` read and write them. -/
structure User where
  username : String
  isPrivate : Bool
  followers : List Id
  following : List Id
  followRequests : List Id
deriving DecidableEq, Repr

/-- The users collection, keyed by `_id`; `s i` is `User.findById(i)`. -/
abbrev Users := Id → Option User

/-- Failure kinds of the specification, one per error reply of the handlers. -/
inductive Failure where
  /-- Reply 404 "User not found!". -/
  | NotFound
  /-- Reply 400 "Can't get followers list - Account is private." (and the same
  for the following list); reply 403 "Access denied!". -/
  | AccessDenied
  /-- Reply 400 "You can't follow yourself!"; reply 400 "Participants are
  required!". -/
  | InvalidOperation
  /-- Reply 400 "Follow request already sent!". -/
  | AlreadyRequested
  /-- Reply 400 "Already following the user!". -/
  | AlreadyFollowing
  /-- Reply 400 "User is not available in the followers". -/
  | NotFollowing
  /-- Reply 400 "No follow request found!". -/
  | NoPendingRequest
  /-- Reply 400 "Receiver required!"; reply 400 "Content(message-text) is must
  required!". -/
  | ValidationError
  /-- No reply: a save is rejected with VersionError and the handler throws. -/
  | StorageError
deriving DecidableEq, Repr

/-- Success replies of the four relationship handlers. -/
inductive Done where
  /-- Reply "Follow request sent." -/
  | requestSent
  /-- Reply "User followed successfully." -/
  | followed
  /-- Reply "Follow request rejected". -/
  | rejected
  /-- Reply "Follow request accepted". -/
  | accepted
  /-- Reply "User unfollowed successfully!". -/
  | unfollowed
deriving DecidableEq, Repr

/-- Write to the stored document with key `id`: the modified paths of a saved
document are applied to the record held under its `_id`. -/
def Users.modify (s : Users) (id : Id) (f : User → User) : Users :=
  fun i => if i = id then (s i).map f else s i

/-- The `followers` array of the user stored under `i` (empty if there is none). -/
def Users.followers (s : Users) (i : Id) : List Id :=
  match s i with
  | some u => u.followers
  | none => []

/-- The `following` array of the user stored under `i` (empty if there is none). -/
def Users.following (s : Users) (i : Id) : List Id :=
  match s i with
  | some u => u.following
  | none => []

/-- The `followRequests` array of the user stored under `i` (empty if there is
none). -/
def Users.followRequests (s : Users) (i : Id) : List Id :=
  match s i with
  | some u => u.followRequests
  | none => []

/-- The `isPrivate` flag of the user stored under `i` (false if there is none). -/
def Users.isPrivate (s : Users) (i : Id) : Bool :=
  match s i with
  | some u => u.isPrivate
  | none => false

/-- `POST /:userId/follow` (users.js 146-181); `currentUserId` is the
identifier of the authenticated caller, `userId` the route parameter.  When
the route string names the caller in another spelling, both loaded documents
are the caller's record; both saves push onto an array and are accepted. -/
def follow (s : Users) (currentUserId : Id) (userId : Param) :
    Except Failure Done × Users :=
  if userId.spells currentUserId then (.error .InvalidOperation, s)
  else
    match s userId.id with
    | none => (.error .NotFound, s)
    | some userToFollow =>
      match s currentUserId with
      | none => (.error .NotFound, s)
      | some currentUser =>
        if userToFollow.isPrivate then
          if currentUserId ∈ userToFollow.followRequests then
            (.error .AlreadyRequested, s)
          else
            let s1 := s.modify userId.id fun u =>
              { u with followRequests := userToFollow.followRequests ++ [currentUserId] }
            (.ok .requestSent, s1)
        else
          if currentUserId ∈ userToFollow.followers then
            (.error .AlreadyFollowing, s)
          else
            let s1 := s.modify userId.id fun u =>
              { u with followers := userToFollow.followers ++ [currentUserId] }
            let s2 := s1.modify currentUserId fun u =>
              { u with following := currentUser.following ++ [userId.id] }
            (.ok .followed, s2)

/-- `POST /reject-request/:requesterId` (users.js 183-208). -/
def rejectRequest (s : Users) (currentUserId : Id) (requesterId : Param) :
    Except Failure Done × Users :=
  if requesterId.spells currentUserId then (.error .InvalidOperation, s)
  else
    match s requesterId.id with
    | none => (.error .NotFound, s)
    | some _requesterUser =>
      match s currentUserId with
      | none => (.error .NotFound, s)
      | some currentUser =>
        if includesParam currentUser.followRequests requesterId = false then
          (.error .NoPendingRequest, s)
        else
          let updatedRequests :=
            currentUser.followRequests.filter fun id => !requesterId.spells id
          let s1 := s.modify currentUserId fun u =>
            { u with followRequests := updatedRequests }
          (.ok .rejected, s1)

/-- `POST /accept-request/:requesterId` (users.js 210-238). -/
def acceptRequest (s : Users) (currentUserId : Id) (requesterId : Param) :
    Except Failure Done × Users :=
  if requesterId.spells currentUserId then (.error .InvalidOperation, s)
  else
    match s requesterId.id with
    | none => (.error .NotFound, s)
    | some requesterUser =>
      match s currentUserId with
      | none => (.error .NotFound, s)
      | some currentUser =>
        if includesParam currentUser.followRequests requesterId = false then
          (.error .NoPendingRequest, s)
        else
          let updatedRequests :=
            currentUser.followRequests.filter fun id => !requesterId.spells id
          let s1 := s.modify currentUserId fun u =>
            { u with followRequests := updatedRequests,
                     followers := currentUser.followers ++ [requesterId.id] }
          let s2 := s1.modify requesterId.id fun u =>
            { u with following := requesterUser.following ++ [currentUserId] }
          (.ok .accepted, s2)

/-- `POST /:userId/unfollow` (users.js 284-311).  The handler has no
comparison of `userId` with `currentUserId`.  Both saves replace an array, so
each carries the version of its loaded document: when the route string names
the caller, the two documents are loads of one record, the first save advances
its version and the second is rejected, the handler throws and sends no
reply. -/
def unfollow (s : Users) (currentUserId : Id) (userId : Param) :
    Except Failure Done × Users :=
  match s userId.id with
  | none => (.error .NotFound, s)
  | some userToUnfollow =>
    match s currentUserId with
    | none => (.error .NotFound, s)
    | some currentUser =>
      if currentUserId ∉ userToUnfollow.followers then
        (.error .NotFollowing, s)
      else
        let s1 := s.modify userId.id fun u =>
          { u with followers := userToUnfollow.followers.filter fun id => id ≠ currentUserId }
        if userId.id = currentUserId then
          (.error .StorageError, s1)
        else
          let s2 := s1.modify currentUserId fun u =>
            { u with following := currentUser.following.filter fun id => !userId.spells id }
          (.ok .unfollowed, s2)

/-- An entry of a returned relationship array: a bare identifier, or the
projection `_id username` that `populate` puts in its place. -/
inductive Ref where
  | id (i : Id)
  | doc (i : Id) (username : String)
deriving DecidableEq, Repr

/-- `populate(path, "_id username")` on an array of identifiers: each
identifier is replaced by the projection of the user it names; identifiers that
name no stored user are dropped. -/
def populate (s : Users) (ids : List Id) : List Ref :=
  ids.filterMap fun i => (s i).map fun u => Ref.doc i u.username

/-- `GET /:userId/followers` (users.js 240-260). -/
def listFollowers (s : Users) (currentUserId : Id) (userId : Param) :
    Except Failure (List Ref) :=
  match s userId.id with
  | none => .error .NotFound
  | some user =>
    match s currentUserId with
    | none => .error .NotFound
    | some currentUser =>
      if includesParam currentUser.following userId = true ∨ user.isPrivate = false then
        .ok (populate s user.followers)
      else
        .error .AccessDenied

/-- `GET /:userId/following` (users.js 262-282).  The document is loaded with
`following` populated; the reply is `res.json(user.followers)`, the
`followers` path, which was not populated. -/
def listFollowing (s : Users) (currentUserId : Id) (userId : Param) :
    Except Failure (List Ref) :=
  match s userId.id with
  | none => .error .NotFound
  | some user =>
    match s currentUserId with
    | none => .error .NotFound
    | some currentUser =>
      if includesParam currentUser.following userId = true ∨ user.isPrivate = false then
        .ok (user.followers.map Ref.id)
      else
        .error .AccessDenied

/-- A call of one of the four relationship transitions: the caller's
identifier and the route parameter. -/
inductive Call where
  | initiate (actor : Id) (target : Param)
  | accept (recipient : Id) (requester : Param)
  | reject (recipient : Id) (requester : Param)
  | unfollow (actor : Id) (target : Param)
deriving DecidableEq, Repr

/-- Run one call to completion and keep the resulting collection. -/
def step (s : Users) : Call → Users
  | .initiate a t => (follow s a t).2
  | .accept r q => (acceptRequest s r q).2
  | .reject r q => (rejectRequest s r q).2
  | .unfollow a t => (unfollow s a t).2

/-- Run a sequence of calls, each to completion, in order. -/
def runCalls (s : Users) (calls : List Call) : Users :=
  calls.foldl step s

/-- A chat document (`models/chats`), with the paths the handlers of
`src/routes/chats.js` read and write. -/
structure Chat where
  id : Id
  participants : List Id
  isGroup : Bool
  groupName : Option String
  admins : List Id
  lastMessage : Option Id
deriving DecidableEq, Repr

/-- Modelled from the spec: the schema defaults of `models/chats`, which is not
under src/.  A chat constructed from its participants alone is a direct chat:
`isGroup` false, no group name, no admins, `lastMessage` null. -/
def Chat.ofParticipants (newId : Id) (participants : List Id) : Chat :=
  { id := newId, participants := participants, isGroup := false,
    groupName := none, admins := [], lastMessage := none }

/-- The query `participants: { $all: [userId, receiverId], $size: 2 }`: the
array holds both identifiers and has two entries. -/
def directQuery (userId receiverId : Id) (c : Chat) : Bool :=
  decide (userId ∈ c.participants) && decide (receiverId ∈ c.participants) &&
    decide (c.participants.length = 2)

/-- `POST /createChat` (chats.js 44-62), the operation getOrCreateDirect.
`chats` is the collection in insertion order, `newId` the identifier that a
document constructed by this call receives, `receiverId` the field of the
request body (`none` when it is missing). -/
def createChat (chats : List Chat) (newId : Id) (userId : Id) (receiverId : Option Id) :
    Except Failure Chat × List Chat :=
  match receiverId with
  | none => (.error .ValidationError, chats)
  | some receiverId =>
    match chats.find? (directQuery userId receiverId) with
    | some chat => (.ok chat, chats)
    | none =>
      let chat := Chat.ofParticipants newId [userId, receiverId]
      (.ok chat, chats ++ [chat])

/-- Two users with empty relationship sets: user 1 (`bob`, public) and user 2
(`alice`, private). -/
def demoUsers : Users := fun i =>
  if i = 1 then some ⟨"bob", false, [], [], []⟩
  else if i = 2 then some ⟨"alice", true, [], [], []⟩
  else none

/-- Three users for the list handlers: user 1 (`bob`) follows nobody, user 2
(`alice`, public) has follower 1 and follows 3, user 3 is `carol`. -/
def listUsers : Users := fun i =>
  if i = 1 then some ⟨"bob", false, [], [], []⟩
  else if i = 2 then some ⟨"alice", false, [1], [3], []⟩
  else if i = 3 then some ⟨"carol", false, [], [], []⟩
  else none

/-- One user who is their own follower (the state that follow produces when
the route string names the caller in upper-case hex). -/
def selfUsers : Users := fun i =>
  if i = 1 then some ⟨"bob", false, [1], [1], []⟩ else none

/-- User 1 follows user 11: 1.following is [11] and 11.followers is [1]. -/
def followUsers : Users := fun i =>
  if i = 1 then some ⟨"bob", false, [], [11], []⟩
  else if i = 11 then some ⟨"kim", false, [1], [], []⟩
  else none

/-- User 1 follows the private user 2. -/
def privateUsers : Users := fun i =>
  if i = 1 then some ⟨"bob", false, [], [2], []⟩
  else if i = 2 then some ⟨"alice", true, [1], [], []⟩
  else none

/-- A message document (`models/messages`), with the paths the handlers of
`src/routes/chats.js` read and write. -/
structure Message where
  id : Id
  chatId : Id
  sender : Id
  content : String
  createdAt : Nat
deriving DecidableEq, Repr

/-- Modelled from the spec: the schema of `models/messages`, which is not under
src/.  A message constructed from `chatId`, `sender` and `content` gets
`createdAt` equal to the current time `now` when it is saved. -/
def Message.create (newId : Id) (now : Nat) (chatId sender : Id) (content : String) :
    Message :=
  { id := newId, chatId := chatId, sender := sender, content := content, createdAt := now }

/-- The chats and the messages collections, each in insertion order. -/
structure Store where
  chats : List Chat
  messages : List Message
deriving DecidableEq, Repr

/-- `Chat.findById(chatId)`. -/
def findChatById (chats : List Chat) (chatId : Id) : Option Chat :=
  chats.find? fun c => decide (c.id = chatId)

/-- `chat.lastMessage = messageId; chat.save()`: the modified path is written
to the stored chat with the `_id` of the loaded document. -/
def saveLastMessage (chats : List Chat) (chatId messageId : Id) : List Chat :=
  chats.map fun c => if c.id = chatId then { c with lastMessage := some messageId } else c

/-- `POST /sendMessages` (chats.js 64-95), the operation append.  `userId` is
the authenticated caller, `content` and `chatId` the fields of the request
body (a missing `content` is the empty string), `newId` the identifier of the
message constructed by this call and `now` the time at which it is saved.  The
reply is the stored message; the projection of its sender that `populate` adds
is left out. -/
def sendMessages (st : Store) (newId : Id) (now : Nat) (userId : Id) (content : String)
    (chatId : Id) : Except Failure Message × Store :=
  if content = "" then (.error .ValidationError, st)
  else
    match findChatById st.chats chatId with
    | none => (.error .AccessDenied, st)
    | some chat =>
      if userId ∉ chat.participants then (.error .AccessDenied, st)
      else
        let newMessage := Message.create newId now chat.id userId content
        let st1 : Store := { st with messages := st.messages ++ [newMessage] }
        let st2 : Store := { st1 with chats := saveLastMessage st1.chats chat.id newMessage.id }
        (.ok newMessage, st2)

/-- `POST /createGroup` (chats.js 97-113).  `participants` and `groupName` are
the fields of the request body, `none` when missing; an array, also the empty
one, is not falsy, so `!participants` holds for the missing field only. -/
def createGroup (chats : List Chat) (newId : Id) (userId : Id)
    (participants : Option (List Id)) (groupName : Option String) :
    Except Failure Chat × List Chat :=
  match participants with
  | none => (.error .InvalidOperation, chats)
  | some participants =>
    let chat : Chat :=
      { Chat.ofParticipants newId (participants ++ [userId]) with
        groupName := groupName, isGroup := true, admins := [userId] }
    (.ok chat, chats ++ [chat])

/-- What the cursor `.sort({ createdAt: -1 })` asks of the server: the result
holds the documents it was given, in descending `createdAt`.  The order of
documents with equal `createdAt` is left to the server. -/
def IsServerSort (sort : List Message → List Message) : Prop :=
  ∀ l, (sort l).Perm l ∧ (sort l).Pairwise fun a b => b.createdAt ≤ a.createdAt

/-- One server order: descending `createdAt`, documents with equal
`createdAt` in stored order. -/
def sortByCreatedAtDesc (l : List Message) : List Message :=
  l.insertionSort fun a b => b.createdAt ≤ a.createdAt

/-- Another server order: descending `createdAt`, documents with equal
`createdAt` in reverse stored order. -/
def sortByCreatedAtDescLatest (l : List Message) : List Message :=
  sortByCreatedAtDesc l.reverse

/-- Reply of `GET /:chatId/messages`. -/
structure MessagesReply where
  messages : List Message
  hasPreviousMessages : Bool
  page : Nat
  limit : Nat
deriving DecidableEq, Repr

/-- `GET /:chatId/messages` (chats.js 25-42), the operation page, for the
parsed query values `page ≥ 1` and `limit ≥ 1`; `sort` is the order in which
the server returns the sorted cursor.  The projection of each sender that
`populate` adds is left out. -/
def getMessages (sort : List Message → List Message) (messages : List Message)
    (chatId : Id) (page limit : Nat) : MessagesReply :=
  let found := messages.filter fun m => decide (m.chatId = chatId)
  let result := ((sort found).drop ((page - 1) * limit)).take limit
  { messages := result, hasPreviousMessages := decide (result.length = limit),
    page := page, limit := limit }

/-- `Message.findById(id)`. -/
def findMessageById (messages : List Message) (id : Id) : Option Message :=
  messages.find? fun m => decide (m.id = id)

/-- One append call to a chat: the identifier and the save time of the message
it constructs, the caller and the content. -/
structure Send where
  newId : Id
  now : Nat
  userId : Id
  content : String
deriving DecidableEq, Repr

/-- The message that a succeeding append call `x` to chat `chatId` stores. -/
def Send.message (chatId : Id) (x : Send) : Message :=
  Message.create x.newId x.now chatId x.userId x.content

/-- Sequential append calls to one chat, each run to completion: the replies
in call order and the store after the last call. -/
def sendAll (st : Store) (chatId : Id) : List Send → List (Except Failure Message) × Store
  | [] => ([], st)
  | x :: xs =>
    let r := sendMessages st x.newId x.now x.userId x.content chatId
    let rest := sendAll r.2 chatId xs
    (r.1 :: rest.1, rest.2)

/-- A call of one of the three writing handlers of `src/routes/chats.js`. -/
inductive ChatCall where
  | createChat (newId userId : Id) (receiverId : Option Id)
  | createGroup (newId userId : Id) (participants : Option (List Id))
      (groupName : Option String)
  | sendMessages (newId : Id) (now : Nat) (userId : Id) (content : String) (chatId : Id)
deriving DecidableEq, Repr

/-- Run one call to completion and keep the resulting store. -/
def chatStep (st : Store) : ChatCall → Store
  | .createChat n u r => { st with chats := (createChat st.chats n u r).2 }
  | .createGroup n u ps g => { st with chats := (createGroup st.chats n u ps g).2 }
  | .sendMessages n now u c cid => (sendMessages st n now u c cid).2

/-- What the environment of a call provides: the identifier given to a new
message is not the identifier of a stored message, and the clock is not behind
the `createdAt` of a stored message. -/
def admissible (st : Store) : ChatCall → Bool
  | .createChat _ _ _ => true
  | .createGroup _ _ _ _ => true
  | .sendMessages n now _ _ _ =>
    decide (∀ m ∈ st.messages, m.id ≠ n ∧ m.createdAt ≤ now)

/-- Every call of the sequence is admissible in the store it runs in. -/
def validRun (st : Store) : List ChatCall → Bool
  | [] => true
  | c :: cs => admissible st c && validRun (chatStep st c) cs

/-- Run a sequence of calls, each to completion, in order. -/
def runChatCalls (st : Store) (calls : List ChatCall) : Store :=
  calls.foldl chatStep st

/-- The pointer property of `lastMessage`: when set, it is the identifier of a
stored message of this chat whose `createdAt` is not below that of any message
of the chat. -/
def LastMessageOK (st : Store) : Prop :=
  ∀ c ∈ st.chats, ∀ l, c.lastMessage = some l →
    ∃ m, findMessageById st.messages l = some m ∧ m.chatId = c.id ∧
      ∀ m2 ∈ st.messages, m2.chatId = c.id → m2.createdAt ≤ m.createdAt

/-- The users collection after the first save of a succeeding public follow
(`userToFollow.save()`, users.js 176) and before the second. -/
def followFirstWrite (s : Users) (currentUserId : Id) (userId : Param) : Users :=
  match s userId.id with
  | none => s
  | some userToFollow =>
    s.modify userId.id fun u =>
      { u with followers := userToFollow.followers ++ [currentUserId] }

/-- The users collection after the first save of a succeeding accept
(`currentUser.save()`, users.js 234) and before the second. -/
def acceptFirstWrite (s : Users) (currentUserId : Id) (requesterId : Param) : Users :=
  match s currentUserId with
  | none => s
  | some currentUser =>
    s.modify currentUserId fun u =>
      { u with followRequests :=
                 currentUser.followRequests.filter fun id => !requesterId.spells id,
               followers := currentUser.followers ++ [requesterId.id] }

/-- The users collection after the first save of a succeeding unfollow
(`userToUnfollow.save()`, users.js 307) and before the second. -/
def unfollowFirstWrite (s : Users) (currentUserId : Id) (userId : Param) : Users :=
  match s userId.id with
  | none => s
  | some userToUnfollow =>
    s.modify userId.id fun u =>
      { u with followers := userToUnfollow.followers.filter fun id => id ≠ currentUserId }

/-- Holds of every call except an unfollow whose route string is not the
lower-case text of its target or names the caller. -/
def Call.plainUnfollow : Call → Bool
  | .unfollow a t => t.canonical && decide (a ≠ t.id)
  | _ => true

/-- The follow graph is symmetric: A is in B.followers exactly when B is in
A.following. -/
def Symmetric (s : Users) : Prop :=
  ∀ A B, A ∈ s.followers B ↔ B ∈ s.following A

/-- A store with the direct chat 10 of users 1 and 2 and no messages. -/
def demoStore : Store := ⟨[Chat.ofParticipants 10 [1, 2]], []⟩

/-- Two appends saved at the same clock value 5. -/
def tieSends : List Send := [⟨100, 5, 1, "a"⟩, ⟨101, 5, 2, "b"⟩]

/-! ## Lemmas on the users collection -/

theorem Users.modify_same (s : Users) (i : Id) (f : User → User) :
    (s.modify i f) i = (s i).map f := by
  simp [Users.modify]

theorem Users.modify_other (s : Users) (i j : Id) (f : User → User) (h : j ≠ i) :
    (s.modify i f) j = s j := by
  simp [Users.modify, h]

theorem Param.spells_iff (p : Param) (i : Id) :
    p.spells i = true ↔ p.canonical = true ∧ p.id = i := by
  simp [Param.spells]

theorem Param.spells_of_ne (p : Param) (i : Id) (h : i ≠ p.id) : p.spells i = false := by
  simp [Param.spells, Ne.symm h]

theorem includesParam_iff (arr : List Id) (p : Param) :
    includesParam arr p = true ↔ p.canonical = true ∧ p.id ∈ arr := by
  simp only [includesParam, List.any_eq_true, Param.spells_iff]
  constructor
  · rintro ⟨i, hi, hc, rfl⟩
    exact ⟨hc, hi⟩
  · rintro ⟨hc, hi⟩
    exact ⟨p.id, hi, hc, rfl⟩

/-- Filtering out the entries whose text is the route string removes the
identifier the string casts to when the string is its lower-case text and
removes nothing otherwise. -/
theorem filter_not_spells (arr : List Id) (p : Param) :
    (arr.filter fun id => !p.spells id) =
      if p.canonical = true then arr.filter (fun id => id ≠ p.id) else arr := by
  by_cases hc : p.canonical = true
  · rw [if_pos hc]
    apply List.filter_congr
    intro x _
    simp [Param.spells, hc, eq_comm]
  · rw [if_neg hc, List.filter_eq_self]
    intro x _
    simp [Param.spells, hc]

/-- The three handlers that compare the route string with the caller's
identifier reject a call that names the caller in lower-case hex and write
nothing. -/
theorem self_call_rejected (s : Users) (A : Id) :
    follow s A (.lower A) = (.error .InvalidOperation, s) ∧
    acceptRequest s A (.lower A) = (.error .InvalidOperation, s) ∧
    rejectRequest s A (.lower A) = (.error .InvalidOperation, s) := by
  simp [follow, acceptRequest, rejectRequest, Param.spells, Param.lower]

theorem directQuery_comm (a b : Id) (c : Chat) :
    directQuery b a c = directQuery a b c := by
  simp only [directQuery, Bool.and_comm (decide (b ∈ c.participants))]

theorem createChat_found (chats : List Chat) (n A B : Id) (c : Chat)
    (h : chats.find? (directQuery A B) = some c) :
    createChat chats n A (some B) = (.ok c, chats) := by
  simp [createChat, h]

theorem createChat_new (chats : List Chat) (n A B : Id)
    (h : chats.find? (directQuery A B) = none) :
    createChat chats n A (some B) =
      (.ok (Chat.ofParticipants n [A, B]), chats ++ [Chat.ofParticipants n [A, B]]) := by
  simp [createChat, h]

/-- A chat found or created by createChat is the first match of the same
query in the collection the call returns. -/
theorem createChat_find (chats : List Chat) (n A B : Id) :
    ∃ c, (createChat chats n A (some B)).1 = .ok c ∧
      (createChat chats n A (some B)).2.find? (directQuery A B) = some c := by
  cases h : chats.find? (directQuery A B) with
  | some c =>
    rw [createChat_found chats n A B c h]
    exact ⟨c, rfl, h⟩
  | none =>
    rw [createChat_new chats n A B h]
    refine ⟨Chat.ofParticipants n [A, B], rfl, ?_⟩
    simp [List.find?_append, h, directQuery, Chat.ofParticipants]

/-! ## Claims -/

/-- C1: starting from empty relationship sets, the calls initiate(1,2),
accept(2,1), initiate(1,2) on private user 2 reach a state in which user 1 is
both in the followRequests and in the followers of user 2: the private branch
of the follow handler does not look at `followers`. -/
theorem follow_after_accept_requests_again :
    (∀ i u, demoUsers i = some u →
      u.followers = [] ∧ u.following = [] ∧ u.followRequests = []) ∧
    1 ∈ (runCalls demoUsers
      [.initiate 1 (.lower 2), .accept 2 (.lower 1), .initiate 1 (.lower 2)]).followRequests 2 ∧
    1 ∈ (runCalls demoUsers
      [.initiate 1 (.lower 2), .accept 2 (.lower 1), .initiate 1 (.lower 2)]).followers 2 := by
  refine ⟨?_, by decide, by decide⟩
  intro i u h
  unfold demoUsers at h
  split_ifs at h <;> simp at h <;> subst h <;> simp

/-- C2: for a public subject 2 whose followers are [1] and whose following is
[3], the following handler replies with the bare followers array [1], not with
the projections of the following set; the followers handler replies with the
projections of the followers. -/
theorem listFollowing_replies_followers :
    listUsers.following 2 = [3] ∧
    populate listUsers (listUsers.following 2) = [Ref.doc 3 "carol"] ∧
    listFollowing listUsers 1 (.lower 2) = .ok [Ref.id 1] ∧
    listFollowers listUsers 1 (.lower 2) = .ok [Ref.doc 1 "bob"] :=
  ⟨rfl, rfl, rfl, rfl⟩

/-- C3, as stated, fails: in the store left by the first save of unfollow(2,1)
after follow(2,1), where 1.followers is empty, 2.following is [1] and no array
holds an identifier twice, two calls initiate(2,1) on the public user 1 end
with 2.following = [1, 1]. -/
theorem follow_twice_duplicates_following :
    (unfollowFirstWrite (follow demoUsers 2 (.lower 1)).2 2 (.lower 1)).followers 1 = [] ∧
    (unfollowFirstWrite (follow demoUsers 2 (.lower 1)).2 2 (.lower 1)).followRequests 1 = [] ∧
    (unfollowFirstWrite (follow demoUsers 2 (.lower 1)).2 2 (.lower 1)).following 2 = [1] ∧
    (follow (unfollowFirstWrite (follow demoUsers 2 (.lower 1)).2 2 (.lower 1))
      2 (.lower 1)).1 = .ok Done.followed ∧
    (follow (follow (unfollowFirstWrite (follow demoUsers 2 (.lower 1)).2 2 (.lower 1))
      2 (.lower 1)).2 2 (.lower 1)).1 = .error Failure.AlreadyFollowing ∧
    (follow (follow (unfollowFirstWrite (follow demoUsers 2 (.lower 1)).2 2 (.lower 1))
      2 (.lower 1)).2 2 (.lower 1)).2.following 2 = [1, 1] :=
  ⟨rfl, rfl, rfl, rfl, rfl, rfl⟩

/-- C3, amended: for existing users A ≠ B, after a first initiate(A,B) a second
initiate(A,B) fails with AlreadyRequested when B is private and with
AlreadyFollowing when B is public, and leaves the store as the first call left
it; A occurs at most once in B.followRequests and in B.followers when that was
so before the two calls, and B occurs at most once in A.following when that
was so before the two calls and B was in A.following only if A was in
B.followers.  The route string may spell B in any way. -/
theorem follow_twice (s : Users) (A : Id) (p : Param) (hne : A ≠ p.id)
    (hA : (s A).isSome) (hB : (s p.id).isSome) :
    (follow (follow s A p).2 A p).1 =
      .error (if s.isPrivate p.id then Failure.AlreadyRequested
        else Failure.AlreadyFollowing) ∧
    (follow (follow s A p).2 A p).2 = (follow s A p).2 ∧
    ((s.followRequests p.id).count A ≤ 1 →
      ((follow (follow s A p).2 A p).2.followRequests p.id).count A ≤ 1) ∧
    ((s.followers p.id).count A ≤ 1 →
      ((follow (follow s A p).2 A p).2.followers p.id).count A ≤ 1) ∧
    ((s.following A).count p.id ≤ 1 → (p.id ∈ s.following A → A ∈ s.followers p.id) →
      ((follow (follow s A p).2 A p).2.following A).count p.id ≤ 1) := by
  obtain ⟨uA, hA⟩ := Option.isSome_iff_exists.mp hA
  obtain ⟨uB, hB⟩ := Option.isSome_iff_exists.mp hB
  have hne2 : p.id ≠ A := Ne.symm hne
  have hsp : p.spells A = false := Param.spells_of_ne p A hne
  by_cases hp : uB.isPrivate = true
  · by_cases hm : A ∈ uB.followRequests
    · have h1 : follow s A p = (.error .AlreadyRequested, s) := by
        simp [follow, hA, hB, hp, hm, hsp]
      simp [h1, Users.isPrivate, hB, hp]
      exact fun h _ => h
    · have h1 : follow s A p = (.ok .requestSent, s.modify p.id fun u =>
          { u with followRequests := uB.followRequests ++ [A] }) := by
        simp [follow, hA, hB, hp, hm, hsp]
      have h2 : follow (s.modify p.id fun u =>
          { u with followRequests := uB.followRequests ++ [A] }) A p =
          (.error .AlreadyRequested, s.modify p.id fun u =>
          { u with followRequests := uB.followRequests ++ [A] }) := by
        simp [follow, Users.modify, hA, hB, hp, hne, hsp]
      rw [h1]
      simp only [h2]
      simp [Users.isPrivate, Users.followRequests, Users.followers, Users.following,
        Users.modify, hA, hB, hp, hne, hne2, List.count_eq_zero_of_not_mem hm]
      exact fun h _ => h
  · by_cases hm : A ∈ uB.followers
    · have h1 : follow s A p = (.error .AlreadyFollowing, s) := by
        simp [follow, hA, hB, hp, hm, hsp]
      simp [h1, Users.isPrivate, hB, hp]
      exact fun h _ => h
    · have h1 : follow s A p = (.ok .followed, (s.modify p.id fun u =>
          { u with followers := uB.followers ++ [A] }).modify A fun u =>
          { u with following := uA.following ++ [p.id] }) := by
        simp [follow, hA, hB, hp, hm, hsp]
      have h2 : follow ((s.modify p.id fun u =>
          { u with followers := uB.followers ++ [A] }).modify A fun u =>
          { u with following := uA.following ++ [p.id] }) A p =
          (.error .AlreadyFollowing, (s.modify p.id fun u =>
          { u with followers := uB.followers ++ [A] }).modify A fun u =>
          { u with following := uA.following ++ [p.id] }) := by
        simp [follow, Users.modify, hA, hB, hp, hne, hne2, hsp]
      rw [h1]
      simp only [h2]
      simp [Users.isPrivate, Users.followRequests, Users.followers, Users.following,
        Users.modify, hA, hB, hp, hne, hne2, List.count_eq_zero_of_not_mem hm]
      intro _ hsym
      have : p.id ∉ uA.following := fun h => hm (hsym h)
      simp [List.count_eq_zero_of_not_mem this]

/-- Witness for C3 on the two demo users (target 2 is private). -/
theorem follow_twice_witness :
    (follow (follow demoUsers 1 (.lower 2)).2 1 (.lower 2)).1 =
      .error Failure.AlreadyRequested ∧
    (follow (follow demoUsers 1 (.lower 2)).2 1 (.lower 2)).2 =
      (follow demoUsers 1 (.lower 2)).2 :=
  ⟨(follow_twice demoUsers 1 (.lower 2) (by decide) rfl rfl).1,
   (follow_twice demoUsers 1 (.lower 2) (by decide) rfl rfl).2.1⟩

/-- C4: when accept(B, A) succeeds, A and B exist, A ≠ B and A was in
B.followRequests; after the call A is in B.followers, B is in A.following and
A is not in B.followRequests.  A is the identifier that the route string
casts to. -/
theorem accept_effect (s : Users) (B : Id) (q : Param)
    (h : (acceptRequest s B q).1 = .ok Done.accepted) :
    ((s q.id).isSome ∧ (s B).isSome ∧ q.id ≠ B ∧ q.id ∈ s.followRequests B) ∧
    q.id ∈ (acceptRequest s B q).2.followers B ∧
    B ∈ (acceptRequest s B q).2.following q.id ∧
    q.id ∉ (acceptRequest s B q).2.followRequests B := by
  unfold acceptRequest at h ⊢
  by_cases hsp : q.spells B = true
  · simp [hsp] at h
  · cases hA : s q.id with
    | none => simp [hsp, hA] at h
    | some uA =>
      cases hB : s B with
      | none => simp [hsp, hA, hB] at h
      | some uB =>
        by_cases hm : includesParam uB.followRequests q = true
        · obtain ⟨hc, hmem⟩ := (includesParam_iff _ _).mp hm
          have hne : q.id ≠ B := by
            intro e
            exact hsp ((Param.spells_iff _ _).mpr ⟨hc, e⟩)
          have hne2 : B ≠ q.id := Ne.symm hne
          simp [hsp, hne, hne2, hA, hB, hm, hmem, Users.followers, Users.following,
            Users.followRequests, Users.modify, Param.spells, hc]
        · simp [hsp, hA, hB, hm] at h

/-- Witness for C4: after initiate(1,2) on private user 2, accept(2,1)
succeeds. -/
theorem accept_effect_witness :
    (acceptRequest (follow demoUsers 1 (.lower 2)).2 2 (.lower 1)).1 = .ok Done.accepted ∧
    1 ∈ (acceptRequest (follow demoUsers 1 (.lower 2)).2 2 (.lower 1)).2.followers 2 ∧
    2 ∈ (acceptRequest (follow demoUsers 1 (.lower 2)).2 2 (.lower 1)).2.following 1 ∧
    1 ∉ (acceptRequest (follow demoUsers 1 (.lower 2)).2 2 (.lower 1)).2.followRequests 2 :=
  ⟨rfl, (accept_effect (follow demoUsers 1 (.lower 2)).2 2 (.lower 1) rfl).2⟩

/-- C5: for existing users recipient ≠ requester with the requester not in
recipient.followRequests, accept and reject both fail with NoPendingRequest and
return the users collection as it was, however the route string spells the
requester. -/
theorem no_pending_request (s : Users) (recipient : Id) (q : Param)
    (hne : recipient ≠ q.id)
    (hR : (s recipient).isSome) (hQ : (s q.id).isSome)
    (hnone : q.id ∉ s.followRequests recipient) :
    acceptRequest s recipient q = (.error .NoPendingRequest, s) ∧
    rejectRequest s recipient q = (.error .NoPendingRequest, s) := by
  obtain ⟨uR, hR⟩ := Option.isSome_iff_exists.mp hR
  obtain ⟨uQ, hQ⟩ := Option.isSome_iff_exists.mp hQ
  have hsp : q.spells recipient = false := Param.spells_of_ne q recipient hne
  simp only [Users.followRequests, hR] at hnone
  have hinc : includesParam uR.followRequests q = false := by
    cases h : includesParam uR.followRequests q with
    | false => rfl
    | true => exact absurd ((includesParam_iff _ _).mp h).2 hnone
  simp [acceptRequest, rejectRequest, hR, hQ, hsp, hinc]

/-- Witness for C5 on the two demo users, whose sets are empty. -/
theorem no_pending_request_witness :
    acceptRequest demoUsers 2 (.lower 1) = (.error .NoPendingRequest, demoUsers) ∧
    rejectRequest demoUsers 2 (.lower 1) = (.error .NoPendingRequest, demoUsers) :=
  no_pending_request demoUsers 2 (.lower 1) (by decide) rfl rfl (by decide)

/-- C6: unfollow(1,1) on an existing user 1 with no followers fails with
NotFollowing, and no call of unfollow ever fails with InvalidOperation;
initiate(1,1) with the route string in upper-case hex is not rejected either,
user 1 becomes their own follower; and when user 1 is their own follower,
unfollow(1,1) empties 1.followers, then its second save is rejected and no
reply is sent, with 1.following left as it was. -/
theorem unfollow_self_not_rejected :
    (unfollow demoUsers 1 (.lower 1)).1 = .error Failure.NotFollowing ∧
    (∀ (s : Users) (A : Id) (p : Param),
      (unfollow s A p).1 ≠ .error Failure.InvalidOperation) ∧
    (follow demoUsers 1 (.upper 1)).1 = .ok Done.followed ∧
    1 ∈ (follow demoUsers 1 (.upper 1)).2.followers 1 ∧
    (unfollow selfUsers 1 (.lower 1)).1 = .error Failure.StorageError ∧
    (unfollow selfUsers 1 (.lower 1)).2.followers 1 = [] ∧
    (unfollow selfUsers 1 (.lower 1)).2.following 1 = [1] := by
  refine ⟨rfl, ?_, rfl, by decide, rfl, rfl, rfl⟩
  intro s A p
  unfold unfollow
  cases hT : s p.id with
  | none => simp
  | some uT =>
    cases hA : s A with
    | none => simp
    | some uA =>
      by_cases hm : A ∈ uT.followers <;> by_cases e : p.id = A <;> simp [hm, e]

/-- What unfollow does when the route string is the lower-case text of a
target other than the caller: it fails with NotFollowing exactly when actor is
not in target.followers and then writes nothing; otherwise it succeeds and
both arrays are filtered, with every followRequests as before. -/
theorem unfollow_lower_effect (s : Users) (actor : Id) (p : Param)
    (hc : p.canonical = true) (hne : actor ≠ p.id)
    (hA : (s actor).isSome) (hT : (s p.id).isSome) :
    ((unfollow s actor p).1 = .error Failure.NotFollowing ↔
      actor ∉ s.followers p.id) ∧
    (actor ∉ s.followers p.id → (unfollow s actor p).2 = s) ∧
    (actor ∈ s.followers p.id →
      (unfollow s actor p).1 = .ok Done.unfollowed ∧
      (unfollow s actor p).2.followers p.id =
        (s.followers p.id).filter (fun x => x ≠ actor) ∧
      (unfollow s actor p).2.following actor =
        (s.following actor).filter (fun x => x ≠ p.id) ∧
      ∀ i, (unfollow s actor p).2.followRequests i = s.followRequests i) := by
  obtain ⟨uA, hA⟩ := Option.isSome_iff_exists.mp hA
  obtain ⟨uT, hT⟩ := Option.isSome_iff_exists.mp hT
  have hne2 : p.id ≠ actor := Ne.symm hne
  by_cases hm : actor ∈ uT.followers
  · have h1 : unfollow s actor p = (.ok .unfollowed, (s.modify p.id fun u =>
        { u with followers := uT.followers.filter fun id => id ≠ actor }).modify actor fun u =>
        { u with following := uA.following.filter fun id => id ≠ p.id }) := by
      simp [unfollow, hA, hT, hm, hne2, filter_not_spells, hc]
    rw [h1]
    refine ⟨by simp [Users.followers, hT, hm], by simp [Users.followers, hT, hm], ?_⟩
    intro _
    refine ⟨rfl, ?_, ?_, ?_⟩
    · simp [Users.followers, Users.modify, hT, hne2]
    · simp [Users.following, Users.modify, hA, hne]
    · intro i
      by_cases e1 : i = actor <;> by_cases e2 : i = p.id <;>
        simp [Users.followRequests, Users.modify, e1, e2] <;>
        cases h : s i <;> simp_all
  · have h1 : unfollow s actor p = (.error .NotFollowing, s) := by
      simp [unfollow, hA, hT, hm]
    rw [h1]
    simp [Users.followers, hT, hm]

/-- C7: with 1.following = [11] and 11.followers = [1], unfollow(1, 11) with
the route string in upper-case hex succeeds and removes 1 from 11.followers,
but leaves 11 in 1.following: the following array is filtered by comparing
each entry's text with the raw route string. -/
theorem unfollow_upper_keeps_following :
    followUsers.followers 11 = [1] ∧ followUsers.following 1 = [11] ∧
    (unfollow followUsers 1 (.upper 11)).1 = .ok Done.unfollowed ∧
    (unfollow followUsers 1 (.upper 11)).2.followers 11 = [] ∧
    (unfollow followUsers 1 (.upper 11)).2.following 1 = [11] ∧
    (unfollow followUsers 1 (.lower 11)).2.following 1 = [] :=
  ⟨rfl, rfl, rfl, rfl, rfl, rfl⟩

/-- What a successful reject does: the requester is removed from the
recipient's followRequests, whose other entries are kept in place, and nothing
else is written. -/
theorem rejectRequest_effect (s : Users) (R : Id) (q : Param)
    (h : (rejectRequest s R q).1 = .ok Done.rejected) :
    q.id ∉ (rejectRequest s R q).2.followRequests R ∧
    (rejectRequest s R q).2.followRequests R =
      (s.followRequests R).filter (fun x => x ≠ q.id) ∧
    (∀ i, i ≠ R → (rejectRequest s R q).2.followRequests i = s.followRequests i) ∧
    (∀ i, (rejectRequest s R q).2.followers i = s.followers i ∧
      (rejectRequest s R q).2.following i = s.following i) := by
  unfold rejectRequest at h ⊢
  by_cases hsp : q.spells R = true
  · simp [hsp] at h
  · cases hQ : s q.id with
    | none => simp [hsp, hQ] at h
    | some uQ =>
      cases hR : s R with
      | none => simp [hsp, hQ, hR] at h
      | some uR =>
        by_cases hm : includesParam uR.followRequests q = true
        · obtain ⟨hc, _⟩ := (includesParam_iff _ _).mp hm
          simp only [hsp, hQ, hR, hm, if_false, Bool.true_eq_false, filter_not_spells,
            hc, if_true]
          refine ⟨?_, ?_, ?_, ?_⟩
          · simp [Users.followRequests, Users.modify, hR]
          · simp [Users.followRequests, Users.modify, hR]
          · intro i hi
            simp [Users.followRequests, Users.modify, hi]
          · intro i
            by_cases e : i = R
            · subst e
              simp [Users.followers, Users.following, Users.modify, hR]
            · simp [Users.followers, Users.following, Users.modify, e]
        · simp [hsp, hQ, hR, hm] at h

/-- C8: after initiate(1, 2) on the private user 2 has put 1 into
2.followRequests, reject(2, 1) with the route string in upper-case hex fails
with NoPendingRequest and writes nothing, so 2.followRequests stays [1];
with the route string in lower-case hex it succeeds and empties
2.followRequests. -/
theorem reject_upper_refused :
    (follow demoUsers 1 (.lower 2)).1 = .ok Done.requestSent ∧
    (follow demoUsers 1 (.lower 2)).2.followRequests 2 = [1] ∧
    (rejectRequest (follow demoUsers 1 (.lower 2)).2 2 (.upper 1)).1 =
      .error Failure.NoPendingRequest ∧
    (rejectRequest (follow demoUsers 1 (.lower 2)).2 2 (.upper 1)).2.followRequests 2 = [1] ∧
    (rejectRequest (follow demoUsers 1 (.lower 2)).2 2 (.lower 1)).1 = .ok Done.rejected ∧
    (rejectRequest (follow demoUsers 1 (.lower 2)).2 2 (.lower 1)).2.followRequests 2 = [] :=
  ⟨rfl, rfl, rfl, rfl, rfl, rfl⟩

/-- What the two list handlers do when the route string is the lower-case text
of the subject: they reply with a list exactly when the subject is not private
or the viewer's following contains the subject, and with AccessDenied
otherwise. -/
theorem list_access_lower (s : Users) (viewer : Id) (p : Param)
    (hc : p.canonical = true)
    (hV : (s viewer).isSome) (hS : (s p.id).isSome) :
    ((∃ l, listFollowers s viewer p = .ok l) ↔
      (s.isPrivate p.id = false ∨ p.id ∈ s.following viewer)) ∧
    ((∃ l, listFollowing s viewer p = .ok l) ↔
      (s.isPrivate p.id = false ∨ p.id ∈ s.following viewer)) ∧
    (¬ (s.isPrivate p.id = false ∨ p.id ∈ s.following viewer) →
      listFollowers s viewer p = .error .AccessDenied ∧
      listFollowing s viewer p = .error .AccessDenied) := by
  obtain ⟨uV, hV⟩ := Option.isSome_iff_exists.mp hV
  obtain ⟨uS, hS⟩ := Option.isSome_iff_exists.mp hS
  simp only [Users.isPrivate, Users.following, hV, hS, listFollowers, listFollowing,
    includesParam_iff, hc, true_and]
  by_cases hp : uS.isPrivate = true <;> by_cases hm : p.id ∈ uV.following <;>
    simp [hp, hm]

/-- C9: viewer 1 follows the private subject 2; with the route string in
upper-case hex both list handlers fail with AccessDenied, although
1.following contains 2; with the route string in lower-case hex the followers
handler replies with the list. -/
theorem list_upper_denied :
    privateUsers.isPrivate 2 = true ∧ 2 ∈ privateUsers.following 1 ∧
    listFollowers privateUsers 1 (.upper 2) = .error .AccessDenied ∧
    listFollowing privateUsers 1 (.upper 2) = .error .AccessDenied ∧
    listFollowers privateUsers 1 (.lower 2) = .ok [Ref.doc 1 "bob"] :=
  ⟨rfl, by decide, rfl, rfl, rfl⟩

/-- C10: for every chats collection and users A, B, after getOrCreateDirect(A,B)
has replied with chat c, a second getOrCreateDirect(A,B) and a
getOrCreateDirect(B,A) both reply with c itself (so with the identifier of c)
and return the collection with no chat added. -/
theorem createChat_idempotent (chats : List Chat) (n1 n2 n3 : Id) (A B : Id) :
    ∃ c, (createChat chats n1 A (some B)).1 = .ok c ∧
      createChat (createChat chats n1 A (some B)).2 n2 A (some B) =
        (.ok c, (createChat chats n1 A (some B)).2) ∧
      createChat (createChat chats n1 A (some B)).2 n3 B (some A) =
        (.ok c, (createChat chats n1 A (some B)).2) := by
  obtain ⟨c, h1, h2⟩ := createChat_find chats n1 A B
  refine ⟨c, h1, createChat_found _ n2 A B c h2, ?_⟩
  have h3 : directQuery B A = directQuery A B := funext (directQuery_comm A B)
  exact createChat_found _ n3 B A c (by rw [h3]; exact h2)

/-- C11: after createGroup(2, [1], "g") has stored a group chat with
participants [1, 2], getOrCreateDirect(1, 2) replies with that chat, whose
isGroup is true, and creates no direct chat: the query tests the participants
array and its size only. -/
theorem createChat_returns_group :
    (createGroup [] 10 2 (some [1]) (some "g")).2 =
      [⟨10, [1, 2], true, some "g", [2], none⟩] ∧
    (createChat (createGroup [] 10 2 (some [1]) (some "g")).2 11 1 (some 2)).1 =
      .ok ⟨10, [1, 2], true, some "g", [2], none⟩ ∧
    (createChat (createGroup [] 10 2 (some [1]) (some "g")).2 11 1 (some 2)).2 =
      (createGroup [] 10 2 (some [1]) (some "g")).2 :=
  ⟨rfl, rfl, rfl⟩

/-- C12: createGroup(1, [], "g") with the empty participants list does not
fail: it replies with a group chat whose participants are [1] and stores it. -/
theorem createGroup_empty_list_creates :
    createGroup [] 10 1 (some []) (some "g") =
      (.ok ⟨10, [1], true, some "g", [1], none⟩, [⟨10, [1], true, some "g", [1], none⟩]) ∧
    createGroup [] 10 1 none (some "g") = (.error .InvalidOperation, []) :=
  ⟨rfl, rfl⟩

/-- C13, as stated, fails: createGroup(1, [1, 2], "g"), whose participants
list contains the creator, creates a chat with participants [1, 2, 1], in which
identifier 1 occurs twice. -/
theorem createGroup_repeats_creator :
    ∃ c, (createGroup [] 10 1 (some [1, 2]) (some "g")).1 = .ok c ∧
      c.participants = [1, 2, 1] ∧ c.participants.count 1 = 2 ∧ ¬ c.participants.Nodup :=
  ⟨⟨10, [1, 2, 1], true, some "g", [1], none⟩, rfl, rfl, by decide, by decide⟩

/-- C13, amended: for every creator, non-empty participantIds (possibly
containing the creator or repeated identifiers) and groupName, createGroup
stores and replies with a chat whose participants are participantIds followed
by the creator, so as a set participantIds ∪ {creator}; no identifier occurs
twice in it exactly when participantIds has no repeated identifier and does not
contain the creator; isGroup is true, admins is [creator] and groupName is as
given. -/
theorem createGroup_effect (chats : List Chat) (newId creator : Id)
    (participantIds : List Id) (groupName : Option String)
    (hne : participantIds ≠ []) :
    ∃ c, createGroup chats newId creator (some participantIds) groupName =
        (.ok c, chats ++ [c]) ∧
      c.participants = participantIds ++ [creator] ∧
      (∀ x, x ∈ c.participants ↔ x ∈ participantIds ∨ x = creator) ∧
      (c.participants.Nodup ↔ participantIds.Nodup ∧ creator ∉ participantIds) ∧
      c.isGroup = true ∧ c.admins = [creator] ∧ c.groupName = groupName := by
  have _ := hne
  refine ⟨_, rfl, rfl, ?_, ?_, rfl, rfl, rfl⟩
  · intro x
    simp [Chat.ofParticipants]
  · simp [Chat.ofParticipants, List.nodup_append]

/-- Witness for C13: creator 1 makes a group with users 2 and 3. -/
theorem createGroup_effect_witness :
    ∃ c, createGroup [] 10 1 (some [2, 3]) (some "g") = (.ok c, [] ++ [c]) ∧
      c.participants = [2, 3] ++ [1] ∧
      (∀ x, x ∈ c.participants ↔ x ∈ [2, 3] ∨ x = 1) ∧
      (c.participants.Nodup ↔ [2, 3].Nodup ∧ 1 ∉ [2, 3]) ∧
      c.isGroup = true ∧ c.admins = [1] ∧ c.groupName = some "g" :=
  createGroup_effect [] 10 1 [2, 3] (some "g") (by decide)

/-- C14: for a stored chat C found under chatId, a sender who is not in
C.participants and non-empty content, append fails with AccessDenied and
returns the store as it was: no message is stored and C.lastMessage and every
other record are unchanged. -/
theorem send_by_non_participant (st : Store) (newId : Id) (now : Nat) (sender : Id)
    (content : String) (chatId : Id) (C : Chat)
    (hc : content ≠ "") (hC : findChatById st.chats chatId = some C)
    (hs : sender ∉ C.participants) :
    sendMessages st newId now sender content chatId = (.error .AccessDenied, st) := by
  simp [sendMessages, hc, hC, hs]

/-- Witness for C14: user 3 sends to the direct chat 10 of users 1 and 2. -/
theorem send_by_non_participant_witness :
    sendMessages ⟨[Chat.ofParticipants 10 [1, 2]], []⟩ 100 5 3 "hi" 10 =
      (.error .AccessDenied, ⟨[Chat.ofParticipants 10 [1, 2]], []⟩) :=
  send_by_non_participant ⟨[Chat.ofParticipants 10 [1, 2]], []⟩ 100 5 3 "hi" 10
    (Chat.ofParticipants 10 [1, 2]) (by decide) rfl (by decide)

/-- C15, as stated, fails: in the store with no chats, append(1, 10, "hi")
names an absent chat and fails with AccessDenied, not with NotFound. -/
theorem send_absent_chat_denied :
    findChatById (Store.mk [] []).chats 10 = none ∧
    (sendMessages ⟨[], []⟩ 100 5 1 "hi" 10).1 = .error Failure.AccessDenied ∧
    (sendMessages ⟨[], []⟩ 100 5 1 "hi" 10).1 ≠ .error Failure.NotFound :=
  ⟨rfl, rfl, by simp [sendMessages, findChatById]⟩

/-- C15, amended: for every sender, non-empty content and chat identifier
absent from the store, append fails with AccessDenied and returns the store as
it was; append never fails with NotFound; with non-empty content AccessDenied
is returned exactly when the chat is absent or the sender is not among the
participants of the chat. -/
theorem send_absent_chat (st : Store) (newId : Id) (now : Nat) (sender : Id)
    (content : String) (chatId : Id) (hc : content ≠ "") :
    (findChatById st.chats chatId = none →
      sendMessages st newId now sender content chatId = (.error .AccessDenied, st)) ∧
    (sendMessages st newId now sender content chatId).1 ≠ .error Failure.NotFound ∧
    ((sendMessages st newId now sender content chatId).1 = .error Failure.AccessDenied ↔
      (findChatById st.chats chatId = none ∨
        ∃ C, findChatById st.chats chatId = some C ∧ sender ∉ C.participants)) := by
  unfold sendMessages
  cases hC : findChatById st.chats chatId with
  | none => simp [hc]
  | some C =>
    by_cases hs : sender ∈ C.participants <;> simp [hc, hs]

/-- Witness for C15 on the store with no chats. -/
theorem send_absent_chat_witness :
    sendMessages ⟨[], []⟩ 100 5 1 "hi" 10 = (.error .AccessDenied, ⟨[], []⟩) :=
  (send_absent_chat ⟨[], []⟩ 100 5 1 "hi" 10 (by decide)).1 rfl

/-! ## Lemmas on the chats and messages collections -/

theorem findChatById_id (chats : List Chat) (chatId : Id) (C : Chat)
    (h : findChatById chats chatId = some C) : C.id = chatId := by
  have := List.find?_some h
  simpa using this

theorem findChatById_saveLastMessage (chats : List Chat) (cid n chatId : Id) :
    findChatById (saveLastMessage chats cid n) chatId =
      (findChatById chats chatId).map fun c =>
        if c.id = cid then { c with lastMessage := some n } else c := by
  have hp : ((fun c : Chat => decide (c.id = chatId)) ∘ fun c : Chat =>
      if c.id = cid then { c with lastMessage := some n } else c) =
      fun c => decide (c.id = chatId) := by
    funext c
    simp only [Function.comp]
    split <;> rfl
  unfold findChatById saveLastMessage
  rw [List.find?_map, hp]

theorem sendMessages_ok (st : Store) (n : Id) (now : Nat) (userId : Id) (content : String)
    (chatId : Id) (C : Chat) (hc : content ≠ "")
    (hC : findChatById st.chats chatId = some C) (hs : userId ∈ C.participants) :
    sendMessages st n now userId content chatId =
      (.ok (Message.create n now chatId userId content),
        ⟨saveLastMessage st.chats chatId n,
          st.messages ++ [Message.create n now chatId userId content]⟩) := by
  have hid := findChatById_id _ _ _ hC
  simp [sendMessages, hc, hC, hs, hid, Message.create]

/-- Appends by participants with non-empty content all succeed; the store
gains the constructed messages in call order and the chat keeps its
participants. -/
theorem sendAll_ok (chatId : Id) (P : List Id) :
    ∀ (sends : List Send) (st : Store),
      (∃ C, findChatById st.chats chatId = some C ∧ C.participants = P) →
      (∀ x ∈ sends, x.userId ∈ P ∧ x.content ≠ "") →
      (sendAll st chatId sends).1 = sends.map (fun x => .ok (x.message chatId)) ∧
      (sendAll st chatId sends).2.messages = st.messages ++ sends.map (Send.message chatId) ∧
      ∃ C, findChatById (sendAll st chatId sends).2.chats chatId = some C ∧
        C.participants = P ∧ ∀ x, sends.getLast? = some x → C.lastMessage = some x.newId := by
  intro sends
  induction sends with
  | nil =>
    intro st ⟨C, hC, hP⟩ _
    exact ⟨rfl, by simp [sendAll], C, hC, hP, by simp⟩
  | cons x xs ih =>
    intro st ⟨C, hC, hP⟩ hok
    have hx := hok x (List.mem_cons_self _ _)
    have h1 := sendMessages_ok st x.newId x.now x.userId x.content chatId C hx.2 hC
      (hP ▸ hx.1)
    have hid := findChatById_id _ _ _ hC
    have hC2 : ∃ C2, findChatById (sendMessages st x.newId x.now x.userId x.content
        chatId).2.chats chatId = some C2 ∧ C2.participants = P ∧
        C2.lastMessage = some x.newId := by
      rw [h1]
      refine ⟨{ C with lastMessage := some x.newId }, ?_, hP, rfl⟩
      simp [findChatById_saveLastMessage, hC, hid]
    obtain ⟨C2, hC2, hP2, hl2⟩ := hC2
    obtain ⟨r1, r2, C3, hC3, hP3, hl3⟩ :=
      ih (sendMessages st x.newId x.now x.userId x.content chatId).2 ⟨C2, hC2, hP2⟩
        (fun y hy => hok y (List.mem_cons_of_mem _ hy))
    refine ⟨?_, ?_, ?_⟩
    · simp only [sendAll, r1, List.map_cons]
      rw [h1]
      rfl
    · simp only [sendAll, r2]
      rw [h1]
      simp [Send.message]
    · simp only [sendAll]
      cases xs with
      | nil =>
        refine ⟨C2, ?_, hP2, ?_⟩
        · simpa [sendAll] using hC2
        · intro y hy
          simp at hy
          subst hy
          exact hl2
      | cons y ys =>
        refine ⟨C3, hC3, hP3, ?_⟩
        intro z hz
        exact hl3 z (by simpa using hz)

/-! ## Lemmas on the server order -/

theorem sortByCreatedAtDesc_isServerSort : IsServerSort sortByCreatedAtDesc := by
  intro l
  haveI : IsTotal Message (fun a b => b.createdAt ≤ a.createdAt) :=
    ⟨fun a b => Nat.le_total b.createdAt a.createdAt⟩
  haveI : IsTrans Message (fun a b => b.createdAt ≤ a.createdAt) :=
    ⟨fun a b c h1 h2 => Nat.le_trans h2 h1⟩
  exact ⟨List.perm_insertionSort _ l, List.sorted_insertionSort _ l⟩

theorem sortByCreatedAtDescLatest_isServerSort : IsServerSort sortByCreatedAtDescLatest := by
  intro l
  obtain ⟨h1, h2⟩ := sortByCreatedAtDesc_isServerSort l.reverse
  exact ⟨h1.trans (List.reverse_perm l), h2⟩

/-- Messages stored with strictly increasing `createdAt` are returned by every
server order in reverse stored order. -/
theorem serverSort_increasing (sort : List Message → List Message)
    (h : IsServerSort sort) (l : List Message)
    (hl : (l.map Message.createdAt).Pairwise (fun a b => a < b)) :
    sort l = l.reverse := by
  obtain ⟨hperm, hsorted⟩ := h l
  have hl2 : l.Pairwise (fun a b => a.createdAt < b.createdAt) :=
    List.pairwise_map.mp hl
  have hnd : (sort l).Pairwise (fun a b => a.createdAt ≠ b.createdAt) := by
    have h1 : (l.map Message.createdAt).Nodup := hl.imp (fun h => Nat.ne_of_lt h)
    have h2 : ((sort l).map Message.createdAt).Nodup := (hperm.map _).nodup_iff.mpr h1
    exact List.pairwise_map.mp h2
  have hs1 : (sort l).Pairwise (fun a b => b.createdAt < a.createdAt) :=
    (hsorted.and hnd).imp (fun h => by omega)
  have hs2 : l.reverse.Pairwise (fun a b => b.createdAt < a.createdAt) :=
    List.pairwise_reverse.mpr hl2
  haveI : IsAntisymm Message (fun a b => b.createdAt < a.createdAt) :=
    ⟨fun a b h1 h2 => absurd h1 (Nat.lt_asymm h2)⟩
  exact List.eq_of_perm_of_sorted (hperm.trans (List.reverse_perm l).symm) hs1 hs2

/-! ## Claims on the message ledger -/

/-- C17: for a chat holding T messages, page p ≥ 1 and page size s ≥ 1, page
returns min(s, T - (p-1)*s) messages (the difference cut off at 0), hasMore is
true exactly when that count equals s, and hasMore differs from the truth
T > p*s exactly when T = p*s, whatever order the server gives to equal
createdAt; and after getOrCreateDirect(1,2) and append(1, chat, "hi"),
page(chat, 1, 10) returns the one message "hi" with hasMore false. -/
theorem page_count_and_hasMore (sort : List Message → List Message)
    (hsort : IsServerSort sort) :
    (∀ (messages : List Message) (chatId : Id) (p s : Nat), 1 ≤ p → 1 ≤ s →
      (getMessages sort messages chatId p s).messages.length =
        min s ((messages.filter fun m => decide (m.chatId = chatId)).length - (p - 1) * s) ∧
      ((getMessages sort messages chatId p s).hasPreviousMessages = true ↔
        (getMessages sort messages chatId p s).messages.length = s) ∧
      (¬ ((getMessages sort messages chatId p s).hasPreviousMessages = true ↔
          p * s < (messages.filter fun m => decide (m.chatId = chatId)).length) ↔
        (messages.filter fun m => decide (m.chatId = chatId)).length = p * s)) ∧
    (createChat [] 10 1 (some 2)).1 = .ok (Chat.ofParticipants 10 [1, 2]) ∧
    (sendMessages ⟨(createChat [] 10 1 (some 2)).2, []⟩ 100 5 1 "hi" 10).1 =
      .ok ⟨100, 10, 1, "hi", 5⟩ ∧
    getMessages sort
      (sendMessages ⟨(createChat [] 10 1 (some 2)).2, []⟩ 100 5 1 "hi" 10).2.messages
      10 1 10 = ⟨[⟨100, 10, 1, "hi", 5⟩], false, 1, 10⟩ := by
  refine ⟨?_, rfl, rfl, ?_⟩
  · intro messages chatId p s hp hs
    obtain ⟨q, rfl⟩ : ∃ q, p = q + 1 := ⟨p - 1, by omega⟩
    have hlen : ∀ l, (sort l).length = l.length := fun l => (hsort l).1.length_eq
    simp only [getMessages, List.length_take, List.length_drop, hlen,
      decide_eq_true_eq, Nat.add_sub_cancel, Nat.succ_mul]
    generalize (messages.filter fun m => decide (m.chatId = chatId)).length = T
    generalize q * s = k
    refine ⟨trivial, trivial, ?_⟩
    by_cases h : k + s < T
    · simp only [h, iff_true]
      omega
    · simp only [h, iff_false]
      omega
  · have hm : (sendMessages ⟨(createChat [] 10 1 (some 2)).2, []⟩ 100 5 1 "hi"
        10).2.messages = [⟨100, 10, 1, "hi", 5⟩] := rfl
    have hone : sort [(⟨100, 10, 1, "hi", 5⟩ : Message)] = [⟨100, 10, 1, "hi", 5⟩] :=
      List.perm_singleton.mp (hsort _).1
    have hf : ([(⟨100, 10, 1, "hi", 5⟩ : Message)].filter
        fun m => decide (m.chatId = 10)) = [⟨100, 10, 1, "hi", 5⟩] := rfl
    simp only [getMessages, hm, hf, hone]
    rfl

/-- Witness for C17: ten messages in chat 10 read with page 1 of size 10, the
server keeping equal createdAt in stored order. -/
theorem page_count_and_hasMore_witness :
    (getMessages sortByCreatedAtDesc
      ((List.range 10).map fun i => ⟨i, 10, 1, "m", i⟩) 10 1 10).messages.length =
      min 10 ((((List.range 10).map fun i => (⟨i, 10, 1, "m", i⟩ : Message)).filter
        fun m => decide (m.chatId = 10)).length - (1 - 1) * 10) :=
  ((page_count_and_hasMore sortByCreatedAtDesc sortByCreatedAtDesc_isServerSort).1
    _ 10 1 10 (by decide) (by decide)).1

/-- C16, as stated, fails: two appends to chat 10 by participants, saved at the
same clock value 5 (a non-decreasing clock), both succeed; the query orders
by createdAt alone, and under the server order that keeps equal createdAt in
stored order page(10, 1, 2) returns the first appended first, not the latest
first (under the order that reverses them it returns the latest first);
lastMessage is the identifier of the second. -/
theorem page_ties_order_not_fixed :
    (tieSends.map Send.now).Pairwise (fun a b => a ≤ b) ∧
    (sendAll demoStore 10 tieSends).1 = tieSends.map (fun x => .ok (x.message 10)) ∧
    IsServerSort sortByCreatedAtDesc ∧
    (getMessages sortByCreatedAtDesc (sendAll demoStore 10 tieSends).2.messages
      10 1 2).messages = [⟨100, 10, 1, "a", 5⟩, ⟨101, 10, 2, "b", 5⟩] ∧
    (getMessages sortByCreatedAtDesc (sendAll demoStore 10 tieSends).2.messages
      10 1 2).messages ≠ (tieSends.map (Send.message 10)).reverse ∧
    IsServerSort sortByCreatedAtDescLatest ∧
    (getMessages sortByCreatedAtDescLatest (sendAll demoStore 10 tieSends).2.messages
      10 1 2).messages = [⟨101, 10, 2, "b", 5⟩, ⟨100, 10, 1, "a", 5⟩] ∧
    (findChatById (sendAll demoStore 10 tieSends).2.chats 10).map Chat.lastMessage =
      some (some 101) :=
  ⟨by decide, rfl, sortByCreatedAtDesc_isServerSort, rfl, by decide,
    sortByCreatedAtDescLatest_isServerSort, rfl, rfl⟩

/-- C16, amended: for a stored chat C that holds no messages and N ≥ 1
sequential append calls to C by participants with non-empty content whose
createdAt values are strictly increasing, every call succeeds, page(C, 1, N)
returns exactly the N stored messages, latest appended first, whatever order
the server gives to equal createdAt, and C.lastMessage is the identifier of
the Nth appended message. -/
theorem page_after_sends (sort : List Message → List Message) (hsort : IsServerSort sort)
    (st : Store) (chatId : Id) (C : Chat) (sends : List Send)
    (hC : findChatById st.chats chatId = some C)
    (hempty : ∀ m ∈ st.messages, m.chatId ≠ chatId)
    (hne : sends ≠ [])
    (hok : ∀ x ∈ sends, x.userId ∈ C.participants ∧ x.content ≠ "")
    (hclock : (sends.map Send.now).Pairwise (fun a b => a < b)) :
    (sendAll st chatId sends).1 = sends.map (fun x => .ok (x.message chatId)) ∧
    (getMessages sort (sendAll st chatId sends).2.messages chatId 1 sends.length).messages =
      (sends.map (Send.message chatId)).reverse ∧
    ∃ C2 x, findChatById (sendAll st chatId sends).2.chats chatId = some C2 ∧
      sends.getLast? = some x ∧ C2.lastMessage = some x.newId := by
  obtain ⟨h1, h2, C2, hC2, _, hl⟩ := sendAll_ok chatId C.participants sends st ⟨C, hC, rfl⟩ hok
  refine ⟨h1, ?_, ?_⟩
  · have hf : (st.messages ++ sends.map (Send.message chatId)).filter
        (fun m => decide (m.chatId = chatId)) = sends.map (Send.message chatId) := by
      rw [List.filter_append]
      have e1 : st.messages.filter (fun m => decide (m.chatId = chatId)) = [] := by
        simp only [List.filter_eq_nil_iff, decide_eq_true_eq]
        exact hempty
      have e2 : (sends.map (Send.message chatId)).filter
          (fun m => decide (m.chatId = chatId)) = sends.map (Send.message chatId) := by
        simp [List.filter_eq_self, Send.message, Message.create]
      rw [e1, e2, List.nil_append]
    have hs : sort (sends.map (Send.message chatId)) =
        (sends.map (Send.message chatId)).reverse := by
      apply serverSort_increasing sort hsort
      have : (sends.map (Send.message chatId)).map Message.createdAt = sends.map Send.now := by
        simp [Send.message, Message.create, Function.comp_def]
      rw [this]
      exact hclock
    simp only [getMessages, h2, hf, hs, Nat.sub_self, Nat.zero_mul, List.drop_zero]
    apply List.take_of_length_le
    simp
  · obtain ⟨x, hx⟩ : ∃ x, sends.getLast? = some x := by
      cases h : sends.getLast? with
      | none => exact absurd (List.getLast?_eq_none_iff.mp h) hne
      | some x => exact ⟨x, rfl⟩
    exact ⟨C2, x, hC2, hx, hl x hx⟩

/-- Witness for C16: two appends to chat 10 saved at clock values 5 and 6. -/
theorem page_after_sends_witness :
    (getMessages sortByCreatedAtDescLatest
      (sendAll demoStore 10 [⟨100, 5, 1, "a"⟩, ⟨101, 6, 2, "b"⟩]).2.messages
      10 1 2).messages = [⟨101, 10, 2, "b", 6⟩, ⟨100, 10, 1, "a", 5⟩] :=
  (page_after_sends sortByCreatedAtDescLatest sortByCreatedAtDescLatest_isServerSort
    demoStore 10 (Chat.ofParticipants 10 [1, 2])
    [⟨100, 5, 1, "a"⟩, ⟨101, 6, 2, "b"⟩] rfl (by decide) (by decide) (by decide)
    (by decide)).2.1

/-! ## Claims on retries -/

/-- C18, as stated, fails: from the state in which only the first save of
follow(2,1) on the public user 1 has been applied, re-running follow(2,1) fails
with AlreadyFollowing and returns that state, in which 2.following is empty,
while the uninterrupted call ends with 2.following = [1]. -/
theorem retry_follow_stays_partial :
    (follow demoUsers 2 (.lower 1)).1 = .ok Done.followed ∧
    (followFirstWrite demoUsers 2 (.lower 1)).followers 1 = [2] ∧
    (follow (followFirstWrite demoUsers 2 (.lower 1)) 2 (.lower 1)).1 =
      .error Failure.AlreadyFollowing ∧
    (follow (followFirstWrite demoUsers 2 (.lower 1)) 2 (.lower 1)).2.following 2 = [] ∧
    (follow demoUsers 2 (.lower 1)).2.following 2 = [1] :=
  ⟨rfl, rfl, rfl, rfl, rfl⟩

/-- The accept part of the retry property, for a route string in lower-case
hex. -/
theorem accept_retry (s : Users) (B : Id) (q : Param) (hc : q.canonical = true)
    (hne : q.id ≠ B) (hA : (s q.id).isSome) (hB : (s B).isSome)
    (hm : q.id ∈ s.followRequests B) :
    (acceptRequest s B q).1 = .ok Done.accepted ∧
    acceptRequest (acceptFirstWrite s B q) B q =
      (.error .NoPendingRequest, acceptFirstWrite s B q) ∧
    (acceptFirstWrite s B q).following q.id = s.following q.id ∧
    (acceptRequest s B q).2.following q.id = s.following q.id ++ [B] ∧
    acceptFirstWrite s B q ≠ (acceptRequest s B q).2 := by
  obtain ⟨uA, hA⟩ := Option.isSome_iff_exists.mp hA
  obtain ⟨uB, hB⟩ := Option.isSome_iff_exists.mp hB
  simp only [Users.followRequests, hB] at hm
  have hne2 : B ≠ q.id := Ne.symm hne
  have hsq : q.spells B = false := Param.spells_of_ne q B hne2
  have hinc : includesParam uB.followRequests q = true :=
    (includesParam_iff _ _).mpr ⟨hc, hm⟩
  have hfil : (uB.followRequests.filter fun id => !q.spells id) =
      uB.followRequests.filter fun id => id ≠ q.id := by
    rw [filter_not_spells, if_pos hc]
  have h1 : acceptRequest s B q = (.ok .accepted, (s.modify B fun u =>
      { u with followRequests := uB.followRequests.filter fun id => id ≠ q.id,
               followers := uB.followers ++ [q.id] }).modify q.id fun u =>
      { u with following := uA.following ++ [B] }) := by
    simp only [acceptRequest, hsq, hinc, hfil, hA, hB]
    simp
  have h2 : acceptFirstWrite s B q = s.modify B fun u =>
      { u with followRequests := uB.followRequests.filter fun id => id ≠ q.id,
               followers := uB.followers ++ [q.id] } := by
    simp only [acceptFirstWrite, hB, hfil]
  have h3 : (acceptFirstWrite s B q).following q.id = s.following q.id := by
    rw [h2]; simp [Users.following, Users.modify, hne]
  have h4 : (acceptRequest s B q).2.following q.id = s.following q.id ++ [B] := by
    rw [h1]; simp [Users.following, Users.modify, hA, hne]
  refine ⟨by rw [h1], ?_, h3, h4, ?_⟩
  · rw [h2]
    have hinc2 : includesParam (uB.followRequests.filter fun id => id ≠ q.id) q = false := by
      cases h : includesParam (uB.followRequests.filter fun id => id ≠ q.id) q with
      | false => rfl
      | true =>
        have := ((includesParam_iff _ _).mp h).2
        simp at this
    simp only [acceptRequest, hsq, Users.modify_same, Users.modify_other _ _ _ _ hne, hA, hB,
      Option.map_some', hinc2]
    simp
  · intro h
    rw [h, h4] at h3
    simp at h3

/-- C18, amended: for existing users A ≠ B, from the state in which only the
first of the two saves has been applied, re-running the same call fails, with
AlreadyFollowing for initiate(A,B) on a public B, with NoPendingRequest for
accept(B,A) and with NotFollowing for unfollow(A,B), and returns that partial
state, in which A.following is as before the operation; for initiate and
accept the partial state differs from the store of the uninterrupted call, and
so it does for unfollow when B was in A.following.  The route string of
initiate is spelled in any way; what is said of accept, and of the store that
an uninterrupted unfollow produces, is for the route string in lower-case
hex. -/
theorem retry_after_first_write (s : Users) (A : Id) (p : Param) (hne : A ≠ p.id)
    (hA : (s A).isSome) (hB : (s p.id).isSome) :
    (s.isPrivate p.id = false → A ∉ s.followers p.id →
      (follow s A p).1 = .ok Done.followed ∧
      follow (followFirstWrite s A p) A p =
        (.error .AlreadyFollowing, followFirstWrite s A p) ∧
      (followFirstWrite s A p).following A = s.following A ∧
      (follow s A p).2.following A = s.following A ++ [p.id] ∧
      followFirstWrite s A p ≠ (follow s A p).2) ∧
    (A ∈ s.followRequests p.id →
      (acceptRequest s p.id (.lower A)).1 = .ok Done.accepted ∧
      acceptRequest (acceptFirstWrite s p.id (.lower A)) p.id (.lower A) =
        (.error .NoPendingRequest, acceptFirstWrite s p.id (.lower A)) ∧
      (acceptFirstWrite s p.id (.lower A)).following A = s.following A ∧
      (acceptRequest s p.id (.lower A)).2.following A = s.following A ++ [p.id] ∧
      acceptFirstWrite s p.id (.lower A) ≠ (acceptRequest s p.id (.lower A)).2) ∧
    (A ∈ s.followers p.id →
      (unfollow s A p).1 = .ok Done.unfollowed ∧
      unfollow (unfollowFirstWrite s A p) A p =
        (.error .NotFollowing, unfollowFirstWrite s A p) ∧
      (unfollowFirstWrite s A p).following A = s.following A ∧
      (p.canonical = true →
        (unfollow s A p).2.following A = (s.following A).filter (fun x => x ≠ p.id)) ∧
      (p.canonical = true → p.id ∈ s.following A →
        unfollowFirstWrite s A p ≠ (unfollow s A p).2)) := by
  obtain ⟨uA, hA⟩ := Option.isSome_iff_exists.mp hA
  obtain ⟨uB, hB⟩ := Option.isSome_iff_exists.mp hB
  have hne2 : p.id ≠ A := Ne.symm hne
  have hsp : p.spells A = false := Param.spells_of_ne p A hne
  refine ⟨?_, ?_, ?_⟩
  · intro hp hm
    simp only [Users.isPrivate, Users.followers, hB] at hp hm
    have h1 : follow s A p = (.ok .followed, (s.modify p.id fun u =>
        { u with followers := uB.followers ++ [A] }).modify A fun u =>
        { u with following := uA.following ++ [p.id] }) := by
      simp [follow, hA, hB, hp, hm, hsp]
    have h2 : followFirstWrite s A p = s.modify p.id fun u =>
        { u with followers := uB.followers ++ [A] } := by
      simp [followFirstWrite, hB]
    have h3 : (followFirstWrite s A p).following A = s.following A := by
      rw [h2]; simp [Users.following, Users.modify, hne]
    have h4 : (follow s A p).2.following A = s.following A ++ [p.id] := by
      rw [h1]; simp [Users.following, Users.modify, hne, hA]
    refine ⟨by rw [h1], ?_, h3, h4, ?_⟩
    · rw [h2]
      simp [follow, Users.modify, hA, hB, hp, hne, hsp]
    · intro h
      rw [h, h4] at h3
      simp at h3
  · intro hm
    exact accept_retry s p.id (.lower A) rfl hne (by simp [Param.lower, hA])
      (by simp [hB]) hm
  · intro hm
    simp only [Users.followers, hB] at hm
    have h1 : unfollow s A p = (.ok .unfollowed, (s.modify p.id fun u =>
        { u with followers := uB.followers.filter fun id => id ≠ A }).modify A fun u =>
        { u with following := uA.following.filter fun id => !p.spells id }) := by
      simp [unfollow, hA, hB, hm, hne2]
    have h2 : unfollowFirstWrite s A p = s.modify p.id fun u =>
        { u with followers := uB.followers.filter fun id => id ≠ A } := by
      simp [unfollowFirstWrite, hB]
    have h3 : (unfollowFirstWrite s A p).following A = s.following A := by
      rw [h2]; simp [Users.following, Users.modify, hne]
    have h4 : p.canonical = true →
        (unfollow s A p).2.following A = (s.following A).filter (fun x => x ≠ p.id) := by
      intro hc
      rw [h1]
      simp [Users.following, Users.modify, hne, hA, filter_not_spells, hc]
    refine ⟨by rw [h1], ?_, h3, h4, ?_⟩
    · rw [h2]
      simp [unfollow, Users.modify, hA, hB, hne, hne2]
    · intro hc hmem h
      rw [h, h4 hc] at h3
      rw [← h3] at hmem
      simp at hmem

/-- Witness for C18 on the demo users: follow(2,1) on the public user 1. -/
theorem retry_after_first_write_witness :
    follow (followFirstWrite demoUsers 2 (.lower 1)) 2 (.lower 1) =
      (.error .AlreadyFollowing, followFirstWrite demoUsers 2 (.lower 1)) ∧
    followFirstWrite demoUsers 2 (.lower 1) ≠ (follow demoUsers 2 (.lower 1)).2 :=
  ⟨((retry_after_first_write demoUsers 2 (.lower 1) (by decide) rfl rfl).1 rfl
     (by decide)).2.1,
   ((retry_after_first_write demoUsers 2 (.lower 1) (by decide) rfl rfl).1 rfl
     (by decide)).2.2.2.2⟩

/-! ## The last-message pointer -/

/-- Adding chats whose `lastMessage` is null keeps the pointer property. -/
theorem LastMessageOK_add_chats (st : Store) (chats2 : List Chat)
    (h : ∀ c ∈ chats2, c ∈ st.chats ∨ c.lastMessage = none)
    (inv : LastMessageOK st) : LastMessageOK { st with chats := chats2 } := by
  intro c hc l hl
  rcases h c hc with hin | hnone
  · exact inv c hin l hl
  · rw [hnone] at hl
    cases hl

theorem createChat_chats (chats : List Chat) (n u : Id) (r : Option Id) :
    ∀ c ∈ (createChat chats n u r).2, c ∈ chats ∨ c.lastMessage = none := by
  intro c hc
  unfold createChat at hc
  cases r with
  | none => exact Or.inl hc
  | some b =>
    cases hf : chats.find? (directQuery u b) with
    | some found =>
      simp only [hf] at hc
      exact Or.inl hc
    | none =>
      simp only [hf, List.mem_append, List.mem_singleton] at hc
      rcases hc with hc | hc
      · exact Or.inl hc
      · exact Or.inr (by rw [hc]; rfl)

theorem createGroup_chats (chats : List Chat) (n u : Id) (ps : Option (List Id))
    (g : Option String) :
    ∀ c ∈ (createGroup chats n u ps g).2, c ∈ chats ∨ c.lastMessage = none := by
  intro c hc
  unfold createGroup at hc
  cases ps with
  | none => exact Or.inl hc
  | some l =>
    simp only [List.mem_append, List.mem_singleton] at hc
    rcases hc with hc | hc
    · exact Or.inl hc
    · exact Or.inr (by rw [hc]; rfl)

/-- An admissible append keeps the pointer property. -/
theorem sendMessages_LastMessageOK (st : Store) (n : Id) (now : Nat) (u : Id)
    (content : String) (chatId : Id)
    (hadm : ∀ m ∈ st.messages, m.id ≠ n ∧ m.createdAt ≤ now)
    (inv : LastMessageOK st) :
    LastMessageOK (sendMessages st n now u content chatId).2 := by
  by_cases hc : content = ""
  · simpa [sendMessages, hc] using inv
  · cases hC : findChatById st.chats chatId with
    | none => simpa [sendMessages, hc, hC] using inv
    | some C =>
      by_cases hs : u ∈ C.participants
      · rw [sendMessages_ok st n now u content chatId C hc hC hs]
        intro c2 hc2 l hl
        simp only [saveLastMessage, List.mem_map] at hc2
        obtain ⟨c, hcin, rfl⟩ := hc2
        by_cases hid : c.id = chatId
        · simp only [hid, if_true] at hl ⊢
          cases hl
          refine ⟨Message.create n now chatId u content, ?_, rfl, ?_⟩
          · have hnone : st.messages.find? (fun m => decide (m.id = n)) = none := by
              simp only [List.find?_eq_none, decide_eq_true_eq]
              exact fun m hm => (hadm m hm).1
            simp [findMessageById, List.find?_append, hnone, Message.create]
          · intro m2 hm2 _
            simp only [List.mem_append, List.mem_singleton] at hm2
            rcases hm2 with hm2 | hm2
            · exact (hadm m2 hm2).2
            · rw [hm2]
        · simp only [hid, if_false] at hl ⊢
          obtain ⟨m, hfind, hchat, hmax⟩ := inv c hcin l hl
          refine ⟨m, ?_, hchat, ?_⟩
          · simp only [findMessageById] at hfind ⊢
            simp [List.find?_append, hfind]
          · intro m2 hm2 hm2c
            simp only [List.mem_append, List.mem_singleton] at hm2
            rcases hm2 with hm2 | hm2
            · exact hmax m2 hm2 hm2c
            · exfalso
              rw [hm2] at hm2c
              exact hid hm2c.symm
      · simpa [sendMessages, hc, hC, hs] using inv

theorem chatStep_LastMessageOK (st : Store) (c : ChatCall)
    (hadm : admissible st c = true) (inv : LastMessageOK st) :
    LastMessageOK (chatStep st c) := by
  cases c with
  | createChat n u r =>
    exact LastMessageOK_add_chats st _ (createChat_chats st.chats n u r) inv
  | createGroup n u ps g =>
    exact LastMessageOK_add_chats st _ (createGroup_chats st.chats n u ps g) inv
  | sendMessages n now u content chatId =>
    simp only [admissible, decide_eq_true_eq] at hadm
    exact sendMessages_LastMessageOK st n now u content chatId hadm inv

theorem runChatCalls_LastMessageOK :
    ∀ (calls : List ChatCall) (st : Store), validRun st calls = true →
      LastMessageOK st → LastMessageOK (runChatCalls st calls) := by
  intro calls
  induction calls with
  | nil => intro st _ inv; exact inv
  | cons c cs ih =>
    intro st hv inv
    simp only [validRun, Bool.and_eq_true] at hv
    exact ih (chatStep st c) hv.2 (chatStep_LastMessageOK st c hv.1 inv)

/-- C19: in every store reached from the store with no chats and no messages by
getOrCreateDirect, createGroup and append calls, each new message getting an
unused identifier and a createdAt from a non-decreasing clock, the lastMessage
of each chat is null or the identifier of a stored message whose chatId is the
identifier of the chat and whose createdAt is not below that of any message of
the chat. -/
theorem lastMessage_pointer (calls : List ChatCall)
    (h : validRun ⟨[], []⟩ calls = true) :
    LastMessageOK (runChatCalls ⟨[], []⟩ calls) := by
  apply runChatCalls_LastMessageOK calls ⟨[], []⟩ h
  intro c hc
  cases hc

/-- Witness for C19: a direct chat, a group and three appends, two of them
saved at the same clock value. -/
theorem lastMessage_pointer_witness :
    LastMessageOK (runChatCalls ⟨[], []⟩
      [.createChat 10 1 (some 2), .sendMessages 100 5 1 "a" 10,
       .createGroup 11 1 (some [2, 3]) (some "g"), .sendMessages 101 5 2 "b" 10,
       .sendMessages 102 7 3 "c" 11]) :=
  lastMessage_pointer _ (by decide)

/-! ## Symmetry of the follow graph -/

theorem Symmetric_of_same (s t : Users)
    (h1 : ∀ Y, t.followers Y = s.followers Y) (h2 : ∀ X, t.following X = s.following X)
    (h : Symmetric s) : Symmetric t := by
  intro X Y
  rw [h1, h2]
  exact h X Y

theorem Symmetric_of_add (s t : Users) (A B : Id)
    (h1 : ∀ X Y, X ∈ t.followers Y ↔ X ∈ s.followers Y ∨ (X = A ∧ Y = B))
    (h2 : ∀ X Y, Y ∈ t.following X ↔ Y ∈ s.following X ∨ (X = A ∧ Y = B))
    (h : Symmetric s) : Symmetric t := by
  intro X Y
  rw [h1, h2, h X Y]

theorem Symmetric_of_remove (s t : Users) (A B : Id)
    (h1 : ∀ X Y, X ∈ t.followers Y ↔ X ∈ s.followers Y ∧ ¬ (X = A ∧ Y = B))
    (h2 : ∀ X Y, Y ∈ t.following X ↔ Y ∈ s.following X ∧ ¬ (X = A ∧ Y = B))
    (h : Symmetric s) : Symmetric t := by
  intro X Y
  rw [h1, h2, h X Y]

theorem followers_modify (s : Users) (i : Id) (f : User → User) (Y : Id) :
    (s.modify i f).followers Y =
      if Y = i then (match s i with | some u => (f u).followers | none => [])
      else s.followers Y := by
  by_cases e : Y = i
  · subst e
    cases h : s Y <;> simp [Users.followers, Users.modify, h]
  · simp [Users.followers, Users.modify, e]

theorem following_modify (s : Users) (i : Id) (f : User → User) (X : Id) :
    (s.modify i f).following X =
      if X = i then (match s i with | some u => (f u).following | none => [])
      else s.following X := by
  by_cases e : X = i
  · subst e
    cases h : s X <;> simp [Users.following, Users.modify, h]
  · simp [Users.following, Users.modify, e]

theorem follow_Symmetric (s : Users) (A : Id) (p : Param) (h : Symmetric s) :
    Symmetric (follow s A p).2 := by
  obtain ⟨B, c⟩ := p
  by_cases hsp : (Param.mk B c).spells A = true
  · simpa [follow, hsp] using h
  · cases hB : s B with
    | none => simpa [follow, hsp, hB] using h
    | some uB =>
      cases hA : s A with
      | none => simpa [follow, hsp, hB, hA] using h
      | some uA =>
        by_cases hp : uB.isPrivate = true
        · by_cases hm : A ∈ uB.followRequests
          · simpa [follow, hsp, hB, hA, hp, hm] using h
          · have h1 : follow s A ⟨B, c⟩ = (.ok .requestSent, s.modify B fun u =>
                { u with followRequests := uB.followRequests ++ [A] }) := by
              simp [follow, hA, hB, hp, hm, hsp]
            rw [h1]
            refine Symmetric_of_same s _ ?_ ?_ h
            · intro Y
              rw [followers_modify]
              by_cases e3 : Y = B
              · subst e3; simp [hB, Users.followers]
              · simp [e3]
            · intro X
              rw [following_modify]
              by_cases e3 : X = B
              · subst e3; simp [hB, Users.following]
              · simp [e3]
        · by_cases hm : A ∈ uB.followers
          · simpa [follow, hsp, hB, hA, hp, hm] using h
          · have h1 : follow s A ⟨B, c⟩ = (.ok .followed, (s.modify B fun u =>
                { u with followers := uB.followers ++ [A] }).modify A fun u =>
                { u with following := uA.following ++ [B] }) := by
              simp [follow, hA, hB, hp, hm, hsp]
            rw [h1]
            refine Symmetric_of_add s _ A B ?_ ?_ h
            · intro X Y
              by_cases e : A = B
              · subst e
                rw [hA] at hB
                cases hB
                simp only [followers_modify, Users.modify_same, hA]
                by_cases e3 : Y = A
                · subst e3; simp [hA, Users.followers]
                · simp [e3]
              · simp only [followers_modify, Users.modify_other _ _ _ _ e, hA, hB]
                by_cases e3 : Y = A
                · subst e3; simp [hA, e, Users.followers]
                · by_cases e4 : Y = B
                  · subst e4; simp [hB, e3, Users.followers]
                  · simp [e3, e4]
            · intro X Y
              by_cases e : A = B
              · subst e
                rw [hA] at hB
                cases hB
                simp only [following_modify, Users.modify_same, hA]
                by_cases e3 : X = A
                · subst e3; simp [hA, Users.following]
                · simp [e3]
              · simp only [following_modify, Users.modify_other _ _ _ _ e, hA, hB]
                by_cases e3 : X = A
                · subst e3; simp [hA, Users.following]
                · by_cases e4 : X = B
                  · subst e4; simp [hB, e3, Users.following]
                  · simp [e3, e4]

theorem acceptRequest_Symmetric (s : Users) (B : Id) (q : Param) (h : Symmetric s) :
    Symmetric (acceptRequest s B q).2 := by
  obtain ⟨A, c⟩ := q
  by_cases hsp : (Param.mk A c).spells B = true
  · simpa [acceptRequest, hsp] using h
  · cases hA : s A with
    | none => simpa [acceptRequest, hsp, hA] using h
    | some uA =>
      cases hB : s B with
      | none => simpa [acceptRequest, hsp, hA, hB] using h
      | some uB =>
        by_cases hm : includesParam uB.followRequests ⟨A, c⟩ = true
        · obtain ⟨hc, hmem⟩ := (includesParam_iff _ _).mp hm
          simp only at hc hmem
          have e : A ≠ B := by
            intro e
            exact hsp ((Param.spells_iff _ _).mpr ⟨hc, e⟩)
          have h1 : acceptRequest s B ⟨A, c⟩ = (.ok .accepted, (s.modify B fun u =>
              { u with followRequests :=
                         uB.followRequests.filter fun id => !(Param.mk A c).spells id,
                       followers := uB.followers ++ [A] }).modify A fun u =>
              { u with following := uA.following ++ [B] }) := by
            simp [acceptRequest, hA, hB, hm, hsp]
          rw [h1]
          refine Symmetric_of_add s _ A B ?_ ?_ h
          · intro X Y
            simp only [followers_modify, Users.modify_other _ _ _ _ e, hA, hB]
            by_cases e3 : Y = A
            · subst e3; simp [hA, e, Users.followers]
            · by_cases e4 : Y = B
              · subst e4; simp [hB, e3, Users.followers]
              · simp [e3, e4]
          · intro X Y
            simp only [following_modify, Users.modify_other _ _ _ _ e, hA, hB]
            by_cases e3 : X = A
            · subst e3; simp [hA, Users.following]
            · by_cases e4 : X = B
              · subst e4; simp [hB, e3, Users.following]
              · simp [e3, e4]
        · simpa [acceptRequest, hsp, hA, hB, hm] using h

theorem rejectRequest_Symmetric (s : Users) (B : Id) (q : Param) (h : Symmetric s) :
    Symmetric (rejectRequest s B q).2 := by
  obtain ⟨A, c⟩ := q
  by_cases hsp : (Param.mk A c).spells B = true
  · simpa [rejectRequest, hsp] using h
  · cases hA : s A with
    | none => simpa [rejectRequest, hsp, hA] using h
    | some uA =>
      cases hB : s B with
      | none => simpa [rejectRequest, hsp, hA, hB] using h
      | some uB =>
        by_cases hm : includesParam uB.followRequests ⟨A, c⟩ = true
        · have h1 : rejectRequest s B ⟨A, c⟩ = (.ok .rejected, s.modify B fun u =>
              { u with followRequests :=
                  uB.followRequests.filter fun id => !(Param.mk A c).spells id }) := by
            simp [rejectRequest, hA, hB, hm, hsp]
          rw [h1]
          refine Symmetric_of_same s _ ?_ ?_ h
          · intro Y
            rw [followers_modify]
            by_cases e3 : Y = B
            · subst e3; simp [hB, Users.followers]
            · simp [e3]
          · intro X
            rw [following_modify]
            by_cases e3 : X = B
            · subst e3; simp [hB, Users.following]
            · simp [e3]
        · simpa [rejectRequest, hsp, hA, hB, hm] using h

theorem unfollow_Symmetric (s : Users) (A B : Id) (e : A ≠ B) (h : Symmetric s) :
    Symmetric (unfollow s A (.lower B)).2 := by
  have e2 : B ≠ A := Ne.symm e
  cases hB : s B with
  | none => simpa [unfollow, Param.lower, hB] using h
  | some uB =>
    cases hA : s A with
    | none => simpa [unfollow, Param.lower, hA, hB] using h
    | some uA =>
      by_cases hm : A ∈ uB.followers
      · have h1 : unfollow s A (.lower B) = (.ok .unfollowed, (s.modify B fun u =>
            { u with followers := uB.followers.filter fun id => id ≠ A }).modify A fun u =>
            { u with following := uA.following.filter fun id => id ≠ B }) := by
          simp [unfollow, Param.lower, hA, hB, hm, e2, filter_not_spells]
        rw [h1]
        refine Symmetric_of_remove s _ A B ?_ ?_ h
        · intro X Y
          simp only [followers_modify, Users.modify_other _ _ _ _ e, hA, hB]
          by_cases e3 : Y = A
          · subst e3; simp [hA, e, Users.followers]
          · by_cases e4 : Y = B
            · subst e4; simp [hB, e3, Users.followers]
            · simp [e3, e4]
        · intro X Y
          simp only [following_modify, Users.modify_other _ _ _ _ e, hA, hB]
          by_cases e3 : X = A
          · subst e3; simp [hA, Users.following]
          · by_cases e4 : X = B
            · subst e4; simp [hB, e3, Users.following]
            · simp [e3, e4]
      · simpa [unfollow, Param.lower, hA, hB, hm] using h

theorem step_Symmetric (s : Users) (c : Call) (hc : c.plainUnfollow = true)
    (h : Symmetric s) : Symmetric (step s c) := by
  cases c with
  | initiate a t => exact follow_Symmetric s a t h
  | accept r q => exact acceptRequest_Symmetric s r q h
  | reject r q => exact rejectRequest_Symmetric s r q h
  | unfollow a t =>
    obtain ⟨B, c⟩ := t
    simp only [Call.plainUnfollow, Bool.and_eq_true, decide_eq_true_eq] at hc
    obtain ⟨hc1, hc2⟩ := hc
    subst hc1
    exact unfollow_Symmetric s a B hc2 h

/-- Symmetry of the follow graph is kept by every run in which each unfollow
names, in lower-case hex, a user other than the caller. -/
theorem runCalls_symmetric_of_plain (s : Users) (calls : List Call)
    (hc : ∀ c ∈ calls, c.plainUnfollow = true) (h : Symmetric s) :
    Symmetric (runCalls s calls) := by
  induction calls generalizing s with
  | nil => exact h
  | cons c cs ih =>
    exact ih (step s c) (fun d hd => hc d (List.mem_cons_of_mem _ hd))
      (step_Symmetric s c (hc c (List.mem_cons_self _ _)) h)

theorem followUsers_Symmetric : Symmetric followUsers := by
  intro A B
  unfold Users.followers Users.following followUsers
  by_cases hA1 : A = 1 <;> by_cases hA11 : A = 11 <;>
    by_cases hB1 : B = 1 <;> by_cases hB11 : B = 11 <;>
    simp [hA1, hA11, hB1, hB11]

/-- C20: the store in which 1.following = [11] and 11.followers = [1] is
symmetric; the one completed call unfollow(1, 11) with the route string in
upper-case hex removes 1 from 11.followers and leaves 11 in 1.following, so the
store it ends in is not symmetric. -/
theorem unfollow_upper_breaks_symmetry :
    Symmetric followUsers ∧
    (unfollow followUsers 1 (.upper 11)).1 = .ok Done.unfollowed ∧
    (runCalls followUsers [.unfollow 1 (.upper 11)]).followers 11 = [] ∧
    (runCalls followUsers [.unfollow 1 (.upper 11)]).following 1 = [11] ∧
    ¬ Symmetric (runCalls followUsers [.unfollow 1 (.upper 11)]) := by
  refine ⟨followUsers_Symmetric, rfl, rfl, rfl, ?_⟩
  intro h
  have h1 := (h 1 11).mpr (by decide)
  exact absurd h1 (by decide)

end Linkify
